import Mathlib

/-
Verification of the Forms-Exporter response synchronization pipeline.

This file gives a shallow embedding of the Python sources:
  - src/cogs/functions/forms.py   (notification path: flatten_response,
    export_using_forms_api, export_using_sheet_api, export_form,
    FormsCog.check_stopped_loop)
  - src/cogs/functions/sqlite.py  (the `forms` dedup table: a SQLite table
    with a single, unconstrained `response_id` column)
  - src/main.py / src/export.py   (export path: export_form, run_every_hour,
    and export.py's variant of export_using_forms_api)

Conventions of the embedding:
  - A pandas cell is `Option String`: `none` is NaN (also what SQLite stores
    for a bound NaN parameter, namely NULL), `some s` is the string `s`.
  - A pandas DataFrame is `Table`: an ordered list of column labels and an
    ordered list of rows; `pd.DataFrame(list-of-dicts).fillna("")` and the
    Sheets-grid construction are modelled cell for cell.
  - The SQLite `forms` table is the list of inserted `response_id` values in
    insertion order; `SELECT ... WHERE response_id = ?` is an existence
    check in which NULL never compares equal to anything.
  - Fallible Python code returns `Except PyErr`; an uncaught exception is an
    `Except.error`.
-/

set_option maxRecDepth 8192

namespace FormsExporter

/-- A pandas cell: `none` models NaN / SQL NULL, `some s` a string value. -/
abbrev Cell := Option String

/-- A pandas DataFrame: ordered column labels and ordered rows of cells.
A column label is itself a `Cell` because the Sheets fallback can produce
NaN column labels (a data row longer than the header row). -/
structure Table where
  columns : List Cell
  rows : List (List Cell)
deriving DecidableEq, Repr

/-- Python dict lookup on an association list (first binding wins; with
`dictInsert` below the list never holds two bindings of one key). -/
def alookup (m : List (String × String)) (k : String) : Option String :=
  match m with
  | [] => none
  | (k2, v) :: rest => if k2 = k then some v else alookup rest k

/-- Python `d[k] = v` on an association list: overwrite in place if the key
is present (keeping its position, as CPython dicts do), else append. -/
def dictInsert (m : List (String × String)) (k v : String) : List (String × String) :=
  match m with
  | [] => [(k, v)]
  | (k2, v2) :: rest => if k2 = k then (k2, v) :: rest else (k2, v2) :: dictInsert rest k v

/-- The untyped `answer` payload of one question in a Forms API response:
either a `textAnswers` object (a list of `{"value": ...}` entries, where the
`value` key may be absent) or anything else, carried as its `str()`
rendering. Mirrors the two branches of `flatten_response`. -/
inductive Answer
  | textAnswers (answers : List (Option String))
  | other (rendering : String)
deriving DecidableEq, Repr

/-- One raw Forms API response: `responseId` and `createTime` may be absent
(`.get(..., "")` in the source), plus the ordered `answers` dict. -/
structure FormResponse where
  responseId : Option String
  createTime : Option String
  answers : List (String × Answer)
deriving DecidableEq, Repr, Inhabited

/-- The cell text `flatten_response` extracts from one answer: the first
`textAnswers` entry's `value` (default `""`, also when the list is empty),
or `str(answer)` for any other shape. -/
def answerText : Answer → String
  | .textAnswers [] => ""
  | .textAnswers (v :: _) => v.getD ""
  | .other r => r

/-- forms.py / main.py `flatten_response`: one response becomes a flat dict
with `responseId`, `createTime` and one entry per answered question. -/
def flatten_response (r : FormResponse) : List (String × String) :=
  let row := [("responseId", r.responseId.getD ""), ("createTime", r.createTime.getD "")]
  r.answers.foldl (fun acc qa => dictInsert acc qa.1 (answerText qa.2)) row

/-- Keys of `row` appended to `cols` in order of first appearance (the
column order `pd.DataFrame(list-of-dicts)` uses). -/
def addKeys (cols : List String) (row : List (String × String)) : List String :=
  row.foldl (fun acc kv => if kv.1 ∈ acc then acc else acc ++ [kv.1]) cols

/-- Column labels of `pd.DataFrame(records)`: the union of the records' keys
in order of first appearance. -/
def dfColumns (records : List (List (String × String))) : List String :=
  records.foldl addKeys []

/-- `pd.DataFrame(records).fillna("")`: every record contributes one row over
the union of all keys; a key a record lacks yields NaN, which `fillna("")`
turns into the empty string. -/
def dfFromRecords (records : List (List (String × String))) : Table :=
  let cols := dfColumns records
  ⟨cols.map some, records.map (fun rec => cols.map (fun c => some ((alookup rec c).getD "")))⟩

/-- The primary-path normalization: `pd.DataFrame([flatten_response(resp)
for resp in responses]).fillna("")`. -/
def normalizePrimary (responses : List FormResponse) : Table :=
  dfFromRecords (responses.map flatten_response)

/-- pandas label lookup `row[label]` on one row of a DataFrame: the value at
the first column whose label equals `label` (`none` = KeyError). -/
def seriesGetCell : List Cell → List Cell → Cell → Option Cell
  | [], _, _ => none
  | _ :: _, [], _ => none
  | c :: cs, v :: vs, lbl => if c = lbl then some v else seriesGetCell cs vs lbl

/-- Python `str()` of a cell as it appears in f-strings: NaN prints "nan". -/
def cellStr : Cell → String
  | some s => s
  | none => "nan"

/-- Maximum row length of a Sheets values grid: the number of columns
`pd.DataFrame(list-of-lists)` produces. -/
def gridWidth (values : List (List String)) : Nat :=
  values.foldl (fun w r => max w r.length) 0

/-- One grid row as a DataFrame row: `pd.DataFrame(list-of-lists)` pads a
row shorter than the widest row with NaN on the right. -/
def padRow (w : Nat) (r : List String) : List Cell :=
  r.map some ++ List.replicate (w - r.length) none

/-- forms.py / main.py `export_using_sheet_api`, from the `values` grid on:
empty `values` gives None; otherwise `pd.DataFrame(values)`, and when the
frame is non-empty (some row is non-empty) row 0 becomes the column labels
and the remaining rows the data (`df.columns = df.iloc[0]; df = df[1:]`).
A frame with rows but zero columns is `df.empty`, so the header step is
skipped and every (empty) row is kept. -/
def export_using_sheet_api (values : List (List String)) : Option Table :=
  if values.isEmpty then none
  else
    let w := gridWidth values
    if w = 0 then some ⟨[], values.map (fun _ => ([] : List Cell))⟩
    else
      match values.map (padRow w) with
      | [] => none
      | hdr :: rest => some ⟨hdr, rest⟩

/-- The transport outcome of the Sheets API call wrapped around
`export_using_sheet_api`: an `HttpError` is caught and returns None. -/
inductive SheetResult
  | httpError
  | ok (values : List (List String))
deriving DecidableEq, Repr

/-- `export_using_sheet_api` including its `except HttpError` branch. -/
def sheetApiResult : SheetResult → Option Table
  | .httpError => none
  | .ok values => export_using_sheet_api values

/-- The transport outcome of the Forms API responses().list call. -/
inductive PrimaryResult
  | httpError
  | ok (responses : List FormResponse)
deriving DecidableEq, Repr

/-- forms.py `export_using_forms_api`: an `HttpError` or an empty response
list both return `(None, {})`; otherwise the flattened DataFrame together
with the config's `MappingOverrides`. -/
def export_using_forms_api (res : PrimaryResult) (cfgMapping : List (String × String)) :
    Option Table × List (String × String) :=
  match res with
  | .httpError => (none, [])
  | .ok rs => if rs.isEmpty then (none, []) else (some (normalizePrimary rs), cfgMapping)

/-- The loop body of the `new_columns` construction, iterating over the
column labels with the dict built so far in `acc`. -/
def buildNCFrom (mapping : List (String × String)) (acc : List (String × String)) :
    List Cell → List (String × String)
  | [] => acc
  | c :: cols =>
    buildNCFrom mapping
      (match c with
       | none => acc
       | some s =>
         if s ≠ "responseId" ∧ s ≠ "createTime" then
           match alookup mapping s with
           | some d => dictInsert acc s d
           | none => acc
         else acc)
      cols

/-- The `new_columns` dict built in `export_form`: for each column label
that is a string, is not `responseId`/`createTime`, and is a key of the
mapping, bind it to its mapped display name. -/
def buildNewColumns (cols : List Cell) (mapping : List (String × String)) :
    List (String × String) :=
  buildNCFrom mapping [] cols

/-- `df.rename(columns=new_columns)` on one label: labels that are keys of
`new_columns` are replaced, all others (including NaN labels) are kept. -/
def renameWith (newCols : List (String × String)) (c : Cell) : Cell :=
  match c with
  | none => none
  | some s =>
    match alookup newCols s with
    | some d => some d
    | none => some s

/-- The column-remapping block of forms.py `export_form`: skipped when the
mapping is empty or no column matched, otherwise a `df.rename`. Cell values
and rows are untouched by `rename`. -/
def renameColumns (t : Table) (mapping : List (String × String)) : Table :=
  if mapping.isEmpty then t
  else
    let nc := buildNewColumns t.columns mapping
    if nc.isEmpty then t else ⟨t.columns.map (renameWith nc), t.rows⟩

/-- Consume up to `maxw` leading decimal digits; returns how many digits
were consumed, their value, and the unconsumed rest of the input. -/
def takeUpTo (s : List Char) (maxw : Nat) : Nat × Nat × List Char :=
  match s, maxw with
  | s, 0 => (0, 0, s)
  | [], _ => (0, 0, [])
  | c :: cs, Nat.succ m =>
    if c.isDigit then
      let (n, v, rest) := takeUpTo cs m
      (n + 1, (c.toNat - 48) * 10 ^ n + v, rest)
    else (0, 0, c :: cs)

/-- Expect one literal character. -/
def expectChar (c : Char) : List Char → Option (List Char)
  | [] => none
  | x :: xs => if x = c then some xs else none

/-- The broken-down result of a successful strptime. -/
structure ParsedTime where
  year : Nat
  month : Nat
  day : Nat
  hour : Nat
  minute : Nat
  second : Nat
  micro : Nat
deriving DecidableEq, Repr

/-- Model of CPython `datetime.strptime(s, "%Y-%m-%dT%H:%M:%S.%fZ")`:
`%Y` is exactly 4 digits, `%m`/`%d`/`%H`/`%M`/`%S` are 1-2 digits within
their calendar ranges, `%f` is 1-6 digits (right-padded to microseconds),
the literal separators must match, and no input may remain; any violation
is a ValueError (`none`). -/
def strptimeIsoMicro (s : String) : Option ParsedTime := do
  let (ny, y, s1) := takeUpTo s.data 4
  if ny ≠ 4 then none else
  let s2 ← expectChar '-' s1
  let (nmo, mo, s3) := takeUpTo s2 2
  if nmo = 0 ∨ mo = 0 ∨ 12 < mo then none else
  let s4 ← expectChar '-' s3
  let (nd, d, s5) := takeUpTo s4 2
  if nd = 0 ∨ d = 0 ∨ 31 < d then none else
  let s6 ← expectChar 'T' s5
  let (nh, h, s7) := takeUpTo s6 2
  if nh = 0 ∨ 23 < h then none else
  let s8 ← expectChar ':' s7
  let (nmi, mi, s9) := takeUpTo s8 2
  if nmi = 0 ∨ 59 < mi then none else
  let s10 ← expectChar ':' s9
  let (nsec, sec, s11) := takeUpTo s10 2
  if nsec = 0 ∨ 61 < sec then none else
  let s12 ← expectChar '.' s11
  let (nf, f, s13) := takeUpTo s12 6
  if nf = 0 then none else
  let s14 ← expectChar 'Z' s13
  if s14.isEmpty then some ⟨y, mo, d, h, mi, sec, f * 10 ^ (6 - nf)⟩ else none

/-- Gregorian leap year. -/
def isLeap (y : Nat) : Bool := (y % 4 = 0 && y % 100 ≠ 0) || y % 400 = 0

/-- Days before month `m` (1-12) in a year. -/
def monthDaysBefore (leap : Bool) (m : Nat) : Nat :=
  [0, 0, 31, 59, 90, 120, 151, 181, 212, 243, 273, 304, 334].getD m 365
    + (if leap ∧ 3 ≤ m then 1 else 0)

/-- `int(dt.timestamp())` of the parsed naive datetime, taking the process
timezone to be UTC: seconds since the Unix epoch, microseconds truncated.
719162 is the day count from 0001-01-01 to 1970-01-01. -/
def civilToUnix (t : ParsedTime) : Int :=
  let days : Int :=
    (365 * (t.year - 1) + (t.year - 1) / 4 - (t.year - 1) / 100 + (t.year - 1) / 400
      + monthDaysBefore (isLeap t.year) t.month + (t.day - 1) : Nat)
  (days - 719162) * 86400 + t.hour * 3600 + t.minute * 60 + t.second

/-- The uncaught Python exceptions the embedded pipeline can raise. -/
inductive PyErr
  | keyError
  | typeError
  | valueError
  | sendError
deriving DecidableEq, Repr

/-- sqlite.py's `forms` table (`CREATE TABLE forms (response_id STRING)` —
no PRIMARY KEY or UNIQUE constraint): its contents are the list of inserted
values in insertion order. `INSERT INTO forms VALUES (?)` appends
unconditionally; a NaN parameter is stored as SQL NULL (`none`). -/
def sqlInsertForms (store : List Cell) (rid : Cell) : List Cell := store ++ [rid]

/-- `SELECT * FROM forms WHERE response_id = ?` followed by `fetchone()`
being truthy: some stored value equals the parameter, where NULL (a bound
NaN) never compares equal to anything, itself included. -/
def sqlSelectForms (store : List Cell) (rid : Cell) : Bool :=
  store.any (fun e =>
    match e, rid with
    | some a, some b => a = b
    | _, _ => false)

/-- The message lines one new row contributes in forms.py `export_form`:
the `Create Time` line (when a `createTime` column exists; a NaN value is a
TypeError inside strptime, a malformed string a ValueError), then one
`**col**: value` line per non-reserved column, then a blank line. -/
def newRowLines (cols : List Cell) (row : List Cell) : Except PyErr (List String) :=
  let ctLines : Except PyErr (List String) :=
    if (some "createTime") ∈ cols then
      match seriesGetCell cols row (some "createTime") with
      | some (some s) =>
        match strptimeIsoMicro s with
        | some pt => .ok ["Create Time: <t:" ++ toString (civilToUnix pt) ++ ":f>\n"]
        | none => .error .valueError
      | some none => .error .typeError
      | none => .error .keyError
    else .ok []
  match ctLines with
  | .error e => .error e
  | .ok ls =>
    let colLines := cols.filterMap (fun c =>
      if c ≠ some "responseId" ∧ c ≠ some "createTime" then
        some ("**" ++ cellStr c ++ "**: " ++ cellStr ((seriesGetCell cols row c).getD none))
      else none)
    .ok (ls ++ colLines ++ [""])

/-- The `for idx, row in df.iterrows()` loop of forms.py `export_form`:
per row, SELECT the dedup table by `row["responseId"]` (KeyError when no
such column exists); skip the row if found; otherwise compose its message
lines and INSERT-and-commit its id. An exception aborts the loop with the
rows committed so far kept. Returns the accumulated `msg_lines` (or the
exception) together with the final table contents. -/
def exportFormLoop (cols : List Cell) :
    List (List Cell) → List Cell → List String → Except PyErr (List String) × List Cell
  | [], store, msgs => (.ok msgs, store)
  | row :: rest, store, msgs =>
    match seriesGetCell cols row (some "responseId") with
    | none => (.error .keyError, store)
    | some ridCell =>
      if sqlSelectForms store ridCell then exportFormLoop cols rest store msgs
      else
        match newRowLines cols row with
        | .error e => (.error e, store)
        | .ok ls => exportFormLoop cols rest (sqlInsertForms store ridCell) (msgs ++ ls)

/-- The inputs one `export_form` call in forms.py sees from the outside:
the Forms API call's outcome, the config's `MappingOverrides`, the linked
sheet id `get_linked_sheet_id` finds (None covers both a metadata HttpError
and an absent destination), and the Sheets API call's outcome. -/
structure Env where
  primary : PrimaryResult
  cfgMapping : List (String × String)
  linkedSheetId : Option String
  sheet : SheetResult
deriving Repr

/-- pandas `df.empty`: some axis has length zero. -/
def dfEmpty (t : Table) : Bool := t.rows.isEmpty || t.columns.isEmpty

/-- The DataFrame forms.py `export_form` iterates, if any: the primary
result, else (when a linked sheet id exists) the Sheets fallback with the
mapping dropped; None when neither works or the frame is empty
(`if df is None or df.empty: return None`), and otherwise the
column-remapped frame. -/
def dfOfEnv (env : Env) : Option Table :=
  let (df0, mapping) := export_using_forms_api env.primary env.cfgMapping
  let step : Option (Option Table × List (String × String)) :=
    match df0 with
    | some d => some (some d, mapping)
    | none =>
      match env.linkedSheetId with
      | some _ => some (sheetApiResult env.sheet, [])
      | none => none
  match step with
  | none => none
  | some (none, _) => none
  | some (some d, mapping1) =>
    if dfEmpty d then none else some (renameColumns d mapping1)

/-- forms.py `export_form` for one form: returns Python None (no data by
any method) or the joined `message_text`, or propagates an uncaught
exception; alongside the dedup-table contents, whose per-row commits
survive an abort. -/
def formsExportForm (env : Env) (store : List Cell) :
    Except PyErr (Option String) × List Cell :=
  match dfOfEnv env with
  | none => (.ok none, store)
  | some d =>
    match exportFormLoop d.columns d.rows store [] with
    | (.ok msgs, store1) => (.ok (some (String.intercalate "\n" msgs)), store1)
    | (.error e, store1) => (.error e, store1)

/-- One form's slice of a `check_stopped_loop` tick: run `export_form`
(exceptions propagate — the cog loop has no handler), substitute
"No responses found." for None, and when a channel is configured and the
text is non-empty, send it (a failing send raises). Returns the message
actually delivered, if any, and the dedup-table contents. -/
def checkCycle (env : Env) (store : List Cell) (channelOk sendOk : Bool) :
    Except PyErr (Option String) × List Cell :=
  match formsExportForm env store with
  | (.error e, store1) => (.error e, store1)
  | (.ok m, store1) =>
    let text := m.getD "No responses found."
    if channelOk ∧ text ≠ "" then
      if sendOk then (.ok (some text), store1) else (.error .sendError, store1)
    else (.ok none, store1)

/-- One event of a `run_every_hour` iteration in main.py. -/
inductive TickEvent
  | synced (i : Nat)
  | caught
  | slept
deriving DecidableEq, Repr

/-- The per-source sweep of `run_every_hour` from source index `i` on:
each successful `export_form` is a `synced` event; the first raising source
jumps to the `except` branch (`caught`), skipping the remaining sources and
the sleep; with no failure the sweep ends in the sleep. -/
def tickGo (i : Nat) : List Bool → List TickEvent
  | [] => [TickEvent.slept]
  | true :: rest => TickEvent.synced i :: tickGo (i + 1) rest
  | false :: _ => [TickEvent.caught]

/-- One full iteration of main.py `run_every_hour`, given for each
configured form whether its `export_form` call completes without raising.
The `try`/`except` wraps the whole iteration, so the loop itself always
proceeds to the next iteration. -/
def runEveryHourTick (outcomes : List Bool) : List TickEvent :=
  tickGo 0 outcomes

/-- One tick of the Discord cog's `check_stopped_loop`, given each form's
`export_form`-and-send outcome in order: there is no `try`/`except`, so the
first exception propagates out of the tick; otherwise the list of texts
sent (None is replaced by "No responses found.", empty text is not sent). -/
def checkStoppedTick : List (Except PyErr (Option String)) → Except PyErr (List String)
  | [] => .ok []
  | r :: rest =>
    match r with
    | .error e => .error e
    | .ok m =>
      let text := m.getD "No responses found."
      match checkStoppedTick rest with
      | .error e => .error e
      | .ok sent => .ok ((if text ≠ "" then [text] else []) ++ sent)

/-- Just enough Python dynamic typing to express export.py's
`export_using_forms_api`, whose failure paths return the tuple `(None, {})`
while its success path returns a bare DataFrame. -/
inductive PyVal
  | vnone
  | vpair (a b : PyVal)
  | vdict (m : List (String × String))
  | vtable (t : Table)
deriving DecidableEq, Repr

/-- export.py `export_using_forms_api`: `return None, {}` on HttpError or
on zero responses, but `return df` (no tuple) on success. -/
def exportPyFormsApi (res : PrimaryResult) : PyVal :=
  match res with
  | .httpError => .vpair .vnone (.vdict [])
  | .ok rs =>
    if rs.isEmpty then .vpair .vnone (.vdict [])
    else .vtable (normalizePrimary rs)

/-- A Python optional DataFrame as a PyVal. -/
def pyOfOptTable : Option Table → PyVal
  | some t => .vtable t
  | none => .vnone

/-- How an export.py `export_form` call ends. -/
inductive ExportPyOutcome
  | attrError
  | returnedNone
  | wroteCsv (t : Table)
  | wroteXlsx (t : Table)
deriving DecidableEq, Repr

/-- export.py `export_form`: `df = export_using_forms_api(...)` (a tuple on
primary failure), the fallback only when `df is None`, then
`df.columns.tolist()` — an AttributeError when `df` is the failure tuple —
and finally the format dispatch. -/
def exportPyExportForm (primary : PrimaryResult) (linkedSheetId : Option String)
    (sheet : SheetResult) (fmt : String) : ExportPyOutcome :=
  let df0 := exportPyFormsApi primary
  let step : Option PyVal :=
    if df0 = PyVal.vnone then
      match linkedSheetId with
      | some _ => some (pyOfOptTable (sheetApiResult sheet))
      | none => none
    else some df0
  match step with
  | none => .returnedNone
  | some df1 =>
    if df1 = PyVal.vnone then .returnedNone
    else
      match df1 with
      | .vtable t =>
        if fmt = "csv" then .wroteCsv t
        else if fmt = "xlsx" then .wroteXlsx t
        else .returnedNone
      | _ => .attrError

/-- The characters that force quoting under csv QUOTE_MINIMAL with a tab
delimiter: the delimiter, the quote char, and the line-break characters. -/
def csvSpecials : List Char := ['\t', '"', '\n', '\r']

/-- Does `to_csv` have to quote this cell text? -/
def needsQuote (s : String) : Bool := s.data.any (fun c => c ∈ csvSpecials)

/-- Double every quote character (the csv quote escape). -/
def escQuotes : List Char → List Char
  | [] => []
  | c :: cs => if c = '"' then '"' :: '"' :: escQuotes cs else c :: escQuotes cs

/-- One cell as `to_csv` writes it: quoted with doubled inner quotes when
it contains a special character, verbatim otherwise. -/
def encodeCell (s : String) : List Char :=
  if needsQuote s then '"' :: (escQuotes s.data ++ ['"']) else s.data

/-- One record as `to_csv` writes it: cells joined by the tab delimiter. -/
def encodeLine : List String → List Char
  | [] => []
  | [f] => encodeCell f
  | f :: g :: fs => encodeCell f ++ '\t' :: encodeLine (g :: fs)

/-- The records of the file, each terminated by a newline. -/
def encodeFile : List (List String) → List Char
  | [] => []
  | l :: ls => encodeLine l ++ '\n' :: encodeFile ls

/-- NaN cells are written as `na_rep` (default empty string). -/
def cellOut : Cell → String
  | some s => s
  | none => ""

/-- The records `df.to_csv(sep=CHAR 9, index=False)` serializes: the header
row of column labels, then every data row. -/
def toCsvLines (t : Table) : List (List String) :=
  (t.columns.map cellOut) :: t.rows.map (fun r => r.map cellOut)

/-- main.py / export.py `df.to_csv(file_path, sep=CHAR 9, index=False)`:
the full tab-delimited text written to the file. -/
def toCsv (t : Table) : String :=
  String.mk (encodeFile (toCsvLines t))

/-- Reader state of the csv automaton: outside a quoted field, inside one,
or just past a quote that may close the field or be the first half of a
doubled (escaped) quote. -/
inductive CsvSt
  | plain
  | quoted
  | qclose
deriving DecidableEq, Repr

/-- Modelled from the spec: re-parsing the delimited-text artifact "with
the same (tab) delimiter". The repository only writes the file; this is a
standard csv reader over the written text: fields are separated by tabs,
records by newlines, a field starting with a quote runs to the matching
quote with doubled quotes unescaped, and a trailing newline does not open
an empty final record. -/
def runCsv : List Char → CsvSt → List Char → List String → List (List String) → List (List String)
  | [], st, f, r, acc =>
    if st = CsvSt.plain ∧ f.isEmpty ∧ r.isEmpty then acc
    else acc ++ [r ++ [String.mk f]]
  | c :: cs, CsvSt.plain, f, r, acc =>
    if c = '"' ∧ f.isEmpty then runCsv cs CsvSt.quoted f r acc
    else if c = '\t' then runCsv cs CsvSt.plain [] (r ++ [String.mk f]) acc
    else if c = '\n' then runCsv cs CsvSt.plain [] [] (acc ++ [r ++ [String.mk f]])
    else runCsv cs CsvSt.plain (f ++ [c]) r acc
  | c :: cs, CsvSt.quoted, f, r, acc =>
    if c = '"' then runCsv cs CsvSt.qclose f r acc
    else runCsv cs CsvSt.quoted (f ++ [c]) r acc
  | c :: cs, CsvSt.qclose, f, r, acc =>
    if c = '"' then runCsv cs CsvSt.quoted (f ++ ['"']) r acc
    else if c = '\t' then runCsv cs CsvSt.plain [] (r ++ [String.mk f]) acc
    else if c = '\n' then runCsv cs CsvSt.plain [] [] (acc ++ [r ++ [String.mk f]])
    else runCsv cs CsvSt.plain (f ++ [c]) r acc

/-- Parse a whole tab-delimited text into its records. -/
def parseTsv (s : String) : List (List String) :=
  runCsv s.data CsvSt.plain [] [] []

/-- Spec-side remap rule, in the words of the claim, for one column label:
the reserved labels keep their names even when present as mapping keys; any
other label present as a mapping key is renamed to its display value; an
unmapped label keeps its original name. -/
def remapSpec (mapping : List (String × String)) (c : Cell) : Cell :=
  match c with
  | none => none
  | some s =>
    if s = "responseId" ∨ s = "createTime" then some s
    else
      match alookup mapping s with
      | some d => some d
      | none => some s

/-- The amended fallback normalization, stated independently: for a
non-empty grid of positive maximum row length, row 0 (padded to the maximum
row length, missing positions NaN) gives the column labels and the
remaining rows (likewise padded) the data; a grid whose rows are all empty
keeps every row as a zero-width data row. -/
def sheetNormalizeSpec (values : List (List String)) : Option Table :=
  match values with
  | [] => none
  | v0 :: vr =>
    let w := gridWidth (v0 :: vr)
    if w = 0 then some ⟨[], (v0 :: vr).map (fun _ => [])⟩
    else
      some ⟨(List.range w).map (fun i => v0[i]?),
            vr.map (fun r => (List.range w).map (fun i => r[i]?))⟩

/-- A response with a well-formed `createTime` and one text answer. -/
def exResponse1 : FormResponse :=
  ⟨some "id1", some "2024-01-02T03:04:05.123456Z", [("q1", .textAnswers [some "hello"])]⟩

/-- A response whose `createTime` field is absent, so `flatten_response`
substitutes the empty string for it. -/
def exResponse2 : FormResponse := ⟨some "id2", none, []⟩

/-- A cycle environment whose primary retrieval yields one new response. -/
def exEnvPrimary : Env := ⟨.ok [exResponse1], [], none, .httpError⟩

/-- The DataFrame `export_form` iterates for `exEnvPrimary`. -/
def exDfPrimary : Table :=
  ⟨[some "responseId", some "createTime", some "q1"],
   [[some "id1", some "2024-01-02T03:04:05.123456Z", some "hello"]]⟩

/-- The notification text the first cycle on `exEnvPrimary` composes. -/
def exMsgPrimary : String := "Create Time: <t:1704164645:f>\n\n**q1**: hello\n"

/-- A primary batch whose second response has an unparseable (empty)
`createTime`, after a first response that parses fine. -/
def exEnvAbort : Env := ⟨.ok [exResponse1, exResponse2], [], none, .httpError⟩

/-- A fallback environment whose sheet has a `responseId` header column but
a data row too short to reach it, leaving that row's id cell NaN. -/
def exEnvNullId : Env := ⟨.ok [], [], some "sheetX", .ok [["x", "responseId"], ["v"]]⟩

/-- Record A answers questions q1 and q2; record B answers q2 and q3 (the
rectangularity example of the spec). -/
def exBatchAB : List FormResponse :=
  [⟨some "A", some "tA", [("q1", .textAnswers [some "a1"]), ("q2", .textAnswers [some "a2"])]⟩,
   ⟨some "B", some "tB", [("q2", .textAnswers [some "b2"]), ("q3", .textAnswers [some "b3"])]⟩]

/-- A 2-row, 3-column all-string table for the export round-trip. -/
def exT9 : Table :=
  ⟨[some "c1", some "c2", some "c3"],
   [[some "a", some "b", some "c"], [some "d", some "e", some "f"]]⟩

/-! Theorems. -/

/-- C1 counterexample: with one new response and a Delivery Sink whose send
fails, the cycle still inserts the row's record id into the dedup table
(the claim demands it stay un-marked), and the next cycle with a working
sink composes an empty message and delivers nothing — the failed row is
never re-delivered. -/
theorem mark_before_delivery_cex :
    checkCycle exEnvPrimary [] true false = (.error .sendError, [some "id1"]) ∧
    ([some "id1"] : List Cell) ≠ [] ∧
    checkCycle exEnvPrimary [some "id1"] true true = (.ok none, [some "id1"]) :=
  ⟨rfl, by decide, rfl⟩

/-- C1 (amended): in forms.py a surviving row's record id is inserted into
the dedup table while the notification text is composed, inside
`export_form`, before delivery is attempted; the table contents after a
cycle are therefore independent of whether the send succeeds and equal the
contents `export_form` alone produces — delivery failure does not unmark
anything, so delivery is at-most-once, not at-least-once. -/
theorem mark_independent_of_delivery (env : Env) (store : List Cell) (ch s1 s2 : Bool) :
    (checkCycle env store ch s1).2 = (checkCycle env store ch s2).2 ∧
    (checkCycle env store ch s1).2 = (formsExportForm env store).2 := by
  unfold checkCycle
  rcases formsExportForm env store with ⟨res, store1⟩
  rcases res with e | m
  · exact ⟨rfl, rfl⟩
  · dsimp only
    by_cases h : ch = true ∧ m.getD "No responses found." ≠ ""
    · rw [if_pos h, if_pos h]
      cases s1 <;> cases s2 <;> exact ⟨rfl, rfl⟩
    · rw [if_neg h, if_neg h]
      exact ⟨rfl, rfl⟩

/-- Sources before index `i` all succeeded: the sweep continues from `i`. -/
theorem tickGo_all_true (pre : List Bool) :
    ∀ (i : Nat) (post : List Bool), (∀ b ∈ pre, b = true) →
      tickGo i (pre ++ false :: post)
        = (List.range' i pre.length).map TickEvent.synced ++ [TickEvent.caught] := by
  induction pre with
  | nil => intro i post _; rfl
  | cons b pre ih =>
    intro i post h
    have hb : b = true := h b (List.mem_cons_self b pre)
    subst hb
    show TickEvent.synced i :: tickGo (i + 1) (pre ++ false :: post) = _
    rw [ih (i + 1) post (fun x hx => h x (List.mem_cons_of_mem _ hx))]
    simp [List.range'_succ]

/-- C2 (amended): in main.py's `run_every_hour` an unexpected error from
one source is caught by the iteration-level `try`/`except`, so the loop
itself survives to the next iteration, but the sources before the failing
one are the only ones synced on that tick — the remaining sources and the
sleep are skipped; and in the Discord cog's `check_stopped_loop` there is
no handler at all: the first error propagates out of the tick. -/
theorem tick_error_contained_at_iteration_level (pre post : List Bool) (e : PyErr)
    (rest : List (Except PyErr (Option String))) (h : ∀ b ∈ pre, b = true) :
    runEveryHourTick (pre ++ false :: post)
      = (List.range pre.length).map TickEvent.synced ++ [TickEvent.caught] ∧
    checkStoppedTick (.error e :: rest) = .error e := by
  refine ⟨?_, rfl⟩
  rw [runEveryHourTick, tickGo_all_true pre 0 post h, List.range_eq_range']

/-- Witness for the C2 theorem at a concrete tick. -/
theorem tick_error_contained_witness :
    (∀ b ∈ [true], b = true) ∧
    (runEveryHourTick [true, false, true] = [TickEvent.synced 0, TickEvent.caught] ∧
     checkStoppedTick [.error .valueError, .ok none] = .error .valueError) :=
  ⟨by decide,
   tick_error_contained_at_iteration_level [true] [true] .valueError [.ok none] (by decide)⟩

/-- C2 counterexample: with two configured sources where the first raises,
the second source is not synced on that tick (no `synced 1` event), and in
the cog loop the error propagates, refuting per-source containment. -/
theorem tick_error_skips_rest_cex :
    runEveryHourTick [false, true] = [TickEvent.caught] ∧
    TickEvent.synced 1 ∉ runEveryHourTick [false, true] ∧
    checkStoppedTick [.error .valueError, .ok (some "m")] = .error .valueError :=
  ⟨rfl, by decide, rfl⟩

/-- C3: in export.py a primary retrieval with zero records and one with an
HttpError both make `export_using_forms_api` return the tuple `(None, {})`,
which `export_form` binds to `df` whole; `df` is then not None, the
fallback (here present, with data) is never consulted, and the call dies
with an AttributeError at `df.columns`. forms.py's `export_form`, by
contrast, treats the two primary failure modes identically, as the claim
says. -/
theorem exportpy_failure_attrerror :
    exportPyExportForm (.ok []) (some "sheet1") (.ok [["h"], ["v"]]) "csv"
      = .attrError ∧
    exportPyExportForm .httpError (some "sheet1") (.ok [["h"], ["v"]]) "csv"
      = .attrError ∧
    ∀ (cfg : List (String × String)) (lnk : Option String) (sh : SheetResult)
      (store : List Cell),
      formsExportForm ⟨.httpError, cfg, lnk, sh⟩ store
        = formsExportForm ⟨.ok [], cfg, lnk, sh⟩ store :=
  ⟨rfl, rfl, fun _ _ _ _ => rfl⟩

/-- C8 counterexample: the dedup table has no uniqueness constraint, so the
second `INSERT` of the same record id appends a duplicate physical row —
the stored contents after two marks differ from the contents after one,
refuting that part of the claim. -/
theorem mark_delivered_duplicates_cex :
    ¬ (sqlInsertForms (sqlInsertForms [] (some "r1")) (some "r1")
        = sqlInsertForms [] (some "r1")) := by decide

/-- C8 (amended): marking a record id delivered a second time is not an
error and leaves membership as observed by the SELECT check unchanged, but
it appends a duplicate row to the stored contents rather than being a
storage-level no-op. -/
theorem mark_delivered_membership_idempotent (store : List Cell) (rid x : Cell) :
    sqlSelectForms (sqlInsertForms (sqlInsertForms store rid) rid) x
      = sqlSelectForms (sqlInsertForms store rid) x ∧
    sqlInsertForms (sqlInsertForms store rid) rid = sqlInsertForms store rid ++ [rid] := by
  refine ⟨?_, rfl⟩
  simp only [sqlInsertForms, sqlSelectForms, List.any_append, List.any_cons, List.any_nil,
    Bool.or_false, Bool.or_assoc, Bool.or_self]

/-- C10: a primary batch whose second response lacks `createTime` (so
`flatten_response` put the empty string there) makes `datetime.strptime`
raise an uncaught ValueError mid-batch: the cycle aborts with the first
row's id already committed to the dedup table and nothing delivered; a
timestamp without fractional seconds fails the same way. -/
theorem strptime_abort_mid_batch :
    formsExportForm exEnvAbort [] = (.error .valueError, [some "id1"]) ∧
    checkCycle exEnvAbort [] true true = (.error .valueError, [some "id1"]) ∧
    strptimeIsoMicro "" = none ∧
    strptimeIsoMicro "2024-01-02T03:04:05Z" = none :=
  ⟨rfl, rfl, rfl, rfl⟩

/-- C6 counterexample: a data row longer than the header is not truncated —
`pd.DataFrame` widens the frame and the extra column gets a NaN label; and
a row shorter than the header is padded with NaN, not with the empty
string. -/
theorem fallback_no_truncation_cex :
    export_using_sheet_api [["h1", "h2"], ["a", "b", "c"]]
      = some ⟨[some "h1", some "h2", none], [[some "a", some "b", some "c"]]⟩ ∧
    ¬ ((export_using_sheet_api [["h1", "h2"], ["a", "b", "c"]]).map
        (fun t => t.columns.length) = some 2) ∧
    export_using_sheet_api [["h1", "h2"], ["a"]]
      = some ⟨[some "h1", some "h2"], [[some "a", none]]⟩ ∧
    ([some "a", none] : List Cell) ≠ [some "a", some ""] :=
  ⟨rfl, by decide, rfl, by decide⟩

theorem alookup_dictInsert_self (m : List (String × String)) (k v : String) :
    alookup (dictInsert m k v) k = some v := by
  induction m with
  | nil => simp [dictInsert, alookup]
  | cons p m ih =>
    obtain ⟨k2, v2⟩ := p
    by_cases h : k2 = k
    · simp [dictInsert, alookup, h]
    · simp [dictInsert, alookup, h, ih]

theorem alookup_dictInsert_ne (m : List (String × String)) (k v s : String) (h : s ≠ k) :
    alookup (dictInsert m k v) s = alookup m s := by
  have hks : ¬ k = s := fun hh => h hh.symm
  induction m with
  | nil => simp [dictInsert, alookup, hks]
  | cons p m ih =>
    obtain ⟨k2, v2⟩ := p
    by_cases h2 : k2 = k
    · subst h2
      simp [dictInsert, alookup, hks]
    · simp [dictInsert, alookup, h2, ih]

theorem buildNCFrom_cons_none (mapping acc : List (String × String)) (cols : List Cell) :
    buildNCFrom mapping acc (none :: cols) = buildNCFrom mapping acc cols := rfl

theorem buildNCFrom_cons_some (mapping acc : List (String × String)) (s2 : String)
    (cols : List Cell) :
    buildNCFrom mapping acc (some s2 :: cols)
      = buildNCFrom mapping
          (if s2 ≠ "responseId" ∧ s2 ≠ "createTime" then
             match alookup mapping s2 with
             | some d => dictInsert acc s2 d
             | none => acc
           else acc)
          cols := rfl

/-- What looking up a label in the partially built `new_columns` dict
yields: the mapping's display value exactly when the label occurs among the
columns already processed, is not reserved, and is a mapping key; otherwise
whatever the accumulator already had. -/
theorem buildNCFrom_lookup (mapping : List (String × String)) (cols : List Cell) :
    ∀ (acc : List (String × String)) (s : String),
      alookup (buildNCFrom mapping acc cols) s
        = if (some s) ∈ cols ∧ s ≠ "responseId" ∧ s ≠ "createTime" ∧
              (alookup mapping s).isSome
          then alookup mapping s
          else alookup acc s := by
  induction cols with
  | nil => intro acc s; simp [buildNCFrom]
  | cons c cols ih =>
    intro acc s
    rcases c with _ | s2
    · rw [buildNCFrom_cons_none, ih]
      by_cases htail : (some s) ∈ cols ∧ s ≠ "responseId" ∧ s ≠ "createTime" ∧
          (alookup mapping s).isSome
      · rw [if_pos htail, if_pos ⟨List.mem_cons_of_mem _ htail.1, htail.2⟩]
      · have hno : ¬ ((some s) ∈ (none :: cols : List Cell) ∧ s ≠ "responseId" ∧
            s ≠ "createTime" ∧ (alookup mapping s).isSome) := by
          rintro ⟨hm, hrest⟩
          rcases List.mem_cons.mp hm with hh | hh
          · exact Option.noConfusion hh
          · exact htail ⟨hh, hrest⟩
        rw [if_neg htail, if_neg hno]
    · rw [buildNCFrom_cons_some, ih]
      by_cases htail : (some s) ∈ cols ∧ s ≠ "responseId" ∧ s ≠ "createTime" ∧
          (alookup mapping s).isSome
      · rw [if_pos htail, if_pos ⟨List.mem_cons_of_mem _ htail.1, htail.2⟩]
      · rw [if_neg htail]
        by_cases hres : s2 ≠ "responseId" ∧ s2 ≠ "createTime"
        · rw [if_pos hres]
          rcases hmap : alookup mapping s2 with _ | d
          · have hno : ¬ ((some s) ∈ (some s2 :: cols : List Cell) ∧ s ≠ "responseId" ∧
                s ≠ "createTime" ∧ (alookup mapping s).isSome) := by
              rintro ⟨hm, hr1, hr2, hr3⟩
              rcases List.mem_cons.mp hm with hh | hh
              · obtain rfl : s = s2 := Option.some.inj hh
                rw [hmap] at hr3
                exact Bool.noConfusion hr3
              · exact htail ⟨hh, hr1, hr2, hr3⟩
            rw [if_neg hno]
          · by_cases hss : s = s2
            · subst hss
              have hcond : (some s) ∈ (some s :: cols : List Cell) ∧ s ≠ "responseId" ∧
                  s ≠ "createTime" ∧ (alookup mapping s).isSome := by
                refine ⟨List.mem_cons_self _ _, hres.1, hres.2, ?_⟩
                rw [hmap]; rfl
              rw [if_pos hcond]
              show alookup (dictInsert acc s d) s = alookup mapping s
              rw [alookup_dictInsert_self, hmap]
            · have hno : ¬ ((some s) ∈ (some s2 :: cols : List Cell) ∧ s ≠ "responseId" ∧
                  s ≠ "createTime" ∧ (alookup mapping s).isSome) := by
                rintro ⟨hm, hrest⟩
                rcases List.mem_cons.mp hm with hh | hh
                · exact hss (Option.some.inj hh)
                · exact htail ⟨hh, hrest⟩
              rw [if_neg hno]
              show alookup (dictInsert acc s2 d) s = alookup acc s
              rw [alookup_dictInsert_ne _ _ _ _ hss]
        · have hno : ¬ ((some s) ∈ (some s2 :: cols : List Cell) ∧ s ≠ "responseId" ∧
              s ≠ "createTime" ∧ (alookup mapping s).isSome) := by
            rintro ⟨hm, hr1, hr2, hr3⟩
            rcases List.mem_cons.mp hm with hh | hh
            · obtain rfl : s = s2 := Option.some.inj hh
              exact hres ⟨hr1, hr2⟩
            · exact htail ⟨hh, hr1, hr2, hr3⟩
          rw [if_neg hno, if_neg hres]

theorem getD_none_mem (l : List Cell) : ∀ (i : Nat), l.getD i none ≠ none → l.getD i none ∈ l := by
  induction l with
  | nil => intro i h; simp [List.getD] at h
  | cons c l ih =>
    intro i h
    cases i with
    | zero => exact List.mem_cons_self _ _
    | succ j => exact List.mem_cons_of_mem _ (ih j h)

theorem getD_map_none (f : Cell → Cell) (hf : f none = none) (l : List Cell) :
    ∀ (i : Nat), (l.map f).getD i none = f (l.getD i none) := by
  induction l with
  | nil => intro i; simp [List.getD, hf]
  | cons c l ih =>
    intro i
    cases i with
    | zero => rfl
    | succ j => exact ih j

/-- C7: the remap block renames exactly the non-reserved column labels that
are mapping keys — `responseId` and `createTime` keep their names even when
present as mapping keys, unmapped labels keep their original names — and it
leaves the rows (hence every cell value) untouched. -/
theorem remap_scoping (t : Table) (mapping : List (String × String)) :
    (renameColumns t mapping).rows = t.rows ∧
    (renameColumns t mapping).columns.length = t.columns.length ∧
    ∀ i : Nat,
      (renameColumns t mapping).columns.getD i none
        = remapSpec mapping (t.columns.getD i none) := by
  have hlook : ∀ s : String,
      alookup (buildNewColumns t.columns mapping) s
        = if (some s) ∈ t.columns ∧ s ≠ "responseId" ∧ s ≠ "createTime" ∧
              (alookup mapping s).isSome
          then alookup mapping s
          else none := fun s => buildNCFrom_lookup mapping t.columns [] s
  have hcell : ∀ c : Cell, c ∈ t.columns →
      renameWith (buildNewColumns t.columns mapping) c = remapSpec mapping c := by
    intro c hc
    rcases c with _ | s
    · rfl
    · show (match alookup (buildNewColumns t.columns mapping) s with
        | some d => some d | none => some s) = _
      rw [hlook s]
      by_cases hres : s = "responseId" ∨ s = "createTime"
      · have : ¬ ((some s) ∈ t.columns ∧ s ≠ "responseId" ∧ s ≠ "createTime" ∧
            (alookup mapping s).isSome) := by
          intro ⟨_, hr1, hr2, _⟩
          rcases hres with hh | hh
          · exact hr1 hh
          · exact hr2 hh
        rw [if_neg this]
        simp [remapSpec, hres]
      · push_neg at hres
        rcases hmap : alookup mapping s with _ | d
        · simp [remapSpec, hres.1, hres.2, hmap]
        · simp [remapSpec, hres.1, hres.2, hmap, hc]
  have hid : ∀ c : Cell, c ∈ t.columns →
      (¬ ((∃ s, c = some s ∧ s ≠ "responseId" ∧ s ≠ "createTime" ∧
        (alookup mapping s).isSome))) → remapSpec mapping c = c := by
    intro c _ hno
    rcases c with _ | s
    · rfl
    · by_cases hres : s = "responseId" ∨ s = "createTime"
      · simp [remapSpec, hres]
      · push_neg at hres
        rcases hmap : alookup mapping s with _ | d
        · simp [remapSpec, hres.1, hres.2, hmap]
        · exact absurd ⟨s, rfl, hres.1, hres.2, by rw [hmap]; rfl⟩ hno
  unfold renameColumns
  by_cases hme : mapping.isEmpty
  · rw [if_pos hme]
    refine ⟨rfl, rfl, fun i => ?_⟩
    have hm0 : mapping = [] := List.isEmpty_iff.mp hme
    subst hm0
    rcases hv : t.columns.getD i none with _ | s
    · rfl
    · simp only [remapSpec]
      by_cases hres : s = "responseId" ∨ s = "createTime" <;> simp [hres, alookup]
  · rw [if_neg hme]
    by_cases hnc : (buildNewColumns t.columns mapping).isEmpty
    · rw [if_pos hnc]
      refine ⟨rfl, rfl, fun i => ?_⟩
      have hnc0 : buildNewColumns t.columns mapping = [] := List.isEmpty_iff.mp hnc
      rcases hv : t.columns.getD i none with _ | s
      · rfl
      · have hmem : (some s : Cell) ∈ t.columns := by
          rw [← hv]
          exact getD_none_mem t.columns i (by rw [hv]; exact fun hh => Option.noConfusion hh)
        refine (hid (some s) hmem ?_).symm
        intro ⟨s2, hs2, hr1, hr2, hr3⟩
        have hs : s2 = s := (Option.some.inj hs2).symm
        subst hs
        have := hlook s2
        rw [hnc0, if_pos ⟨hmem, hr1, hr2, hr3⟩] at this
        rcases hmap : alookup mapping s2 with _ | d
        · rw [hmap] at hr3; exact Bool.noConfusion hr3
        · rw [hmap] at this; simp [alookup] at this
    · rw [if_neg hnc]
      refine ⟨rfl, by simp, fun i => ?_⟩
      show (t.columns.map (renameWith (buildNewColumns t.columns mapping))).getD i none = _
      rw [getD_map_none _ rfl]
      rcases hv : t.columns.getD i none with _ | s
      · rfl
      · have hmem : (some s : Cell) ∈ t.columns := by
          rw [← hv]
          exact getD_none_mem t.columns i (by rw [hv]; exact fun hh => Option.noConfusion hh)
        exact hcell (some s) hmem

theorem foldl_max_le_init (l : List (List String)) :
    ∀ a : Nat, a ≤ l.foldl (fun w r => max w r.length) a := by
  induction l with
  | nil => intro a; exact Nat.le_refl a
  | cons r l ih => intro a; exact Nat.le_trans (Nat.le_max_left a r.length) (ih _)

theorem gridWidth_ge_go (l : List (List String)) :
    ∀ (a : Nat) (r : List String), r ∈ l → r.length ≤ l.foldl (fun w r => max w r.length) a := by
  induction l with
  | nil => intro a r hr; exact absurd hr (List.not_mem_nil r)
  | cons r0 l ih =>
    intro a r hr
    rcases List.mem_cons.mp hr with rfl | hr2
    · exact Nat.le_trans (Nat.le_max_right a r.length) (foldl_max_le_init l _)
    · exact ih _ r hr2

/-- Every grid row is at most as long as the frame `pd.DataFrame` builds
from the grid is wide. -/
theorem gridWidth_ge (values : List (List String)) :
    ∀ r ∈ values, r.length ≤ gridWidth values :=
  fun r hr => gridWidth_ge_go values 0 r hr

/-- The NaN right-padding of a grid row, described positionally. -/
theorem padRow_eq_range : ∀ (r : List String) (w : Nat), r.length ≤ w →
    padRow w r = (List.range w).map (fun i => r[i]?) := by
  intro r
  induction r with
  | nil =>
    intro w _
    simp [padRow]
  | cons a r ih =>
    intro w h
    cases w with
    | zero => simp at h
    | succ w2 =>
      have h2 : r.length ≤ w2 := by simpa using h
      have hstep : padRow (w2 + 1) (a :: r) = some a :: padRow w2 r := by
        simp [padRow, Nat.succ_sub_succ]
      rw [hstep, ih w2 h2, List.range_succ_eq_map]
      simp only [List.map_cons, List.getElem?_cons_zero, List.map_map]
      refine congrArg (some a :: ·) (List.map_congr_left ?_)
      intro i _
      simp

/-- C6 (amended): for a non-empty grid the produced frame is the grid
padded to its maximum row length with NaN — not to the header's width: row
0 (NaN-padded) gives the column labels, including NaN labels for positions
beyond row 0's length, the remaining rows (NaN-padded, never truncated)
give the data, and a grid whose rows are all empty keeps every row as a
zero-width data row with no header consumed. -/
theorem fallback_normalization_padded (values : List (List String)) :
    export_using_sheet_api values = sheetNormalizeSpec values := by
  cases values with
  | nil => rfl
  | cons v0 vr =>
    show (if gridWidth (v0 :: vr) = 0
        then some (⟨[], (v0 :: vr).map (fun _ => ([] : List Cell))⟩ : Table)
        else match (v0 :: vr).map (padRow (gridWidth (v0 :: vr))) with
          | [] => none
          | hdr :: rest => some (⟨hdr, rest⟩ : Table))
      = (if gridWidth (v0 :: vr) = 0
        then some (⟨[], (v0 :: vr).map (fun _ => ([] : List Cell))⟩ : Table)
        else some (⟨(List.range (gridWidth (v0 :: vr))).map (fun i => v0[i]?),
            vr.map (fun r => (List.range (gridWidth (v0 :: vr))).map (fun i => r[i]?))⟩ : Table))
    by_cases hw : gridWidth (v0 :: vr) = 0
    · rw [if_pos hw, if_pos hw]
    · rw [if_neg hw, if_neg hw]
      simp only [List.map_cons, Option.some.injEq, Table.mk.injEq]
      refine ⟨padRow_eq_range v0 _ (gridWidth_ge _ v0 (List.mem_cons_self _ _)), ?_⟩
      refine List.map_congr_left ?_
      intro r hr
      exact padRow_eq_range r _ (gridWidth_ge _ r (List.mem_cons_of_mem _ hr))

theorem addKeys_cons (acc : List String) (kv : String × String)
    (row : List (String × String)) :
    addKeys acc (kv :: row) = addKeys (if kv.1 ∈ acc then acc else acc ++ [kv.1]) row := rfl

theorem addKeys_sub (row : List (String × String)) :
    ∀ (acc : List String) (k : String), k ∈ acc → k ∈ addKeys acc row := by
  induction row with
  | nil => intro acc k h; exact h
  | cons kv row ih =>
    intro acc k h
    rw [addKeys_cons]
    refine ih _ k ?_
    by_cases hm : kv.1 ∈ acc
    · rw [if_pos hm]; exact h
    · rw [if_neg hm]; exact List.mem_append_left _ h

theorem addKeys_key (row : List (String × String)) :
    ∀ (acc : List String) (k : String), (∃ v, (k, v) ∈ row) → k ∈ addKeys acc row := by
  induction row with
  | nil => rintro acc k ⟨v, hv⟩; exact absurd hv (List.not_mem_nil _)
  | cons kv row ih =>
    rintro acc k ⟨v, hv⟩
    rw [addKeys_cons]
    rcases List.mem_cons.mp hv with rfl | hv2
    · refine addKeys_sub row _ k ?_
      by_cases hm : (k, v).1 ∈ acc
      · rw [if_pos hm]; exact hm
      · rw [if_neg hm]
        exact List.mem_append_right _ (List.mem_singleton.mpr rfl)
    · exact ih _ k ⟨v, hv2⟩

theorem foldl_addKeys_sub (recs : List (List (String × String))) :
    ∀ (acc : List String) (k : String), k ∈ acc → k ∈ recs.foldl addKeys acc := by
  induction recs with
  | nil => intro acc k h; exact h
  | cons rec recs ih => intro acc k h; exact ih _ k (addKeys_sub rec acc k h)

/-- A key of any record is a column of the frame built from the records. -/
theorem foldl_addKeys_key (recs : List (List (String × String))) :
    ∀ (acc : List String) (rec : List (String × String)) (k : String), rec ∈ recs →
      (∃ v, (k, v) ∈ rec) → k ∈ recs.foldl addKeys acc := by
  induction recs with
  | nil => intro acc rec k h _; exact absurd h (List.not_mem_nil _)
  | cons rec0 recs ih =>
    intro acc rec k h hv
    rcases List.mem_cons.mp h with rfl | h2
    · exact foldl_addKeys_sub recs _ k (addKeys_key rec acc k hv)
    · exact ih _ rec k h2 hv

theorem alookup_isSome_mem (rec : List (String × String)) (k : String) :
    (alookup rec k).isSome → ∃ v, (k, v) ∈ rec := by
  induction rec with
  | nil => intro h; simp [alookup] at h
  | cons kv rec ih =>
    obtain ⟨k2, v2⟩ := kv
    intro h
    by_cases hk : k2 = k
    · subst hk
      exact ⟨v2, List.mem_cons_self _ _⟩
    · simp only [alookup, if_neg hk] at h
      obtain ⟨v, hv⟩ := ih h
      exact ⟨v, List.mem_cons_of_mem _ hv⟩

/-- Label lookup in a row built by mapping `g` over the column names. -/
theorem seriesGetCell_map (g : String → Cell) (q : String) :
    ∀ cols : List String, q ∈ cols →
      seriesGetCell (cols.map some) (cols.map g) (some q) = some (g q) := by
  intro cols
  induction cols with
  | nil => intro h; exact absurd h (List.not_mem_nil _)
  | cons c cols ih =>
    intro h
    by_cases hc : c = q
    · subst hc
      simp [seriesGetCell]
    · have h2 : q ∈ cols := by
        rcases List.mem_cons.mp h with hh | hh
        · exact absurd hh.symm hc
        · exact hh
      simp only [List.map_cons, seriesGetCell, Option.some.injEq]
      rw [if_neg hc]
      exact ih h2

/-- C5: normalizing a primary batch is rectangular — one row per record,
every row as long as the column list, no NaN cell survives `fillna("")` —
every field answered in any record contributes a column, and each row's
cell at a column is that record's flattened value, the empty string when
the record lacks the field. -/
theorem normalize_primary_rectangular (rs : List FormResponse) :
    (normalizePrimary rs).rows.length = rs.length ∧
    (∀ row ∈ (normalizePrimary rs).rows, row.length = (normalizePrimary rs).columns.length) ∧
    (∀ row ∈ (normalizePrimary rs).rows, ∀ cell ∈ row, cell ≠ none) ∧
    (∀ r ∈ rs, ∀ q : String, (alookup (flatten_response r) q).isSome →
      (some q) ∈ (normalizePrimary rs).columns) ∧
    (∀ (i : Nat) (h : i < rs.length) (q : String),
      (some q) ∈ (normalizePrimary rs).columns →
      seriesGetCell (normalizePrimary rs).columns ((normalizePrimary rs).rows.getD i [])
          (some q)
        = some (some ((alookup (flatten_response rs[i]) q).getD ""))) := by
  refine ⟨?_, ?_, ?_, ?_, ?_⟩
  · simp [normalizePrimary, dfFromRecords]
  · intro row hrow
    simp only [normalizePrimary, dfFromRecords, List.mem_map] at hrow ⊢
    obtain ⟨rec, _, rfl⟩ := hrow
    simp
  · intro row hrow cell hcell
    simp only [normalizePrimary, dfFromRecords, List.mem_map] at hrow
    obtain ⟨rec, _, rfl⟩ := hrow
    simp only [List.mem_map] at hcell
    obtain ⟨c, _, rfl⟩ := hcell
    exact Option.some_ne_none _
  · intro r hr q hq
    have hk : ∃ v, (q, v) ∈ flatten_response r := alookup_isSome_mem _ _ hq
    have hcols : q ∈ dfColumns (rs.map flatten_response) :=
      foldl_addKeys_key _ [] (flatten_response r) q
        (List.mem_map_of_mem flatten_response hr) hk
    simp only [normalizePrimary, dfFromRecords, List.mem_map]
    exact ⟨q, hcols, rfl⟩
  · intro i h q hq
    have hq2 : q ∈ dfColumns (rs.map flatten_response) := by
      simp only [normalizePrimary, dfFromRecords, List.mem_map] at hq
      obtain ⟨q2, hq2, he⟩ := hq
      obtain rfl : q2 = q := Option.some.inj he
      exact hq2
    have hlen : i < ((rs.map flatten_response).map
        (fun rec => (dfColumns (rs.map flatten_response)).map
          (fun c => some ((alookup rec c).getD "")))).length := by
      simpa using h
    have hlen2 : i < (rs.map flatten_response).length := by simpa using h
    have hrow : (normalizePrimary rs).rows.getD i []
        = (dfColumns (rs.map flatten_response)).map
            (fun c => some ((alookup (flatten_response rs[i]) c).getD "")) := by
      show ((rs.map flatten_response).map
          (fun rec => (dfColumns (rs.map flatten_response)).map
            (fun c => some ((alookup rec c).getD "")))).getD i [] = _
      rw [List.getD_eq_getElem _ _ hlen, List.getElem_map, List.getElem_map]
    rw [hrow]
    show seriesGetCell ((dfColumns (rs.map flatten_response)).map some) _ _ = _
    exact seriesGetCell_map _ q _ hq2

/-- Witness for C5 at the spec's two-record example: record A answers
{q1, q2}, record B {q2, q3}; q3 is a column, and record A's q3 cell is the
empty string. -/
theorem normalize_primary_rectangular_witness :
    0 < (exBatchAB : List FormResponse).length ∧
    (some "q3") ∈ (normalizePrimary exBatchAB).columns ∧
    seriesGetCell (normalizePrimary exBatchAB).columns
        ((normalizePrimary exBatchAB).rows.getD 0 []) (some "q3") = some (some "") :=
  ⟨by decide, by decide,
   (normalize_primary_rectangular exBatchAB).2.2.2.2 0 (by decide) "q3" (by decide)⟩

theorem sqlSelectForms_append (s1 s2 : List Cell) (x : Cell) :
    sqlSelectForms (s1 ++ s2) x = (sqlSelectForms s1 x || sqlSelectForms s2 x) := by
  simp [sqlSelectForms, List.any_append]

theorem exportFormLoop_cons (cols row : List Cell) (rest : List (List Cell))
    (store : List Cell) (msgs : List String) :
    exportFormLoop cols (row :: rest) store msgs
      = match seriesGetCell cols row (some "responseId") with
        | none => (.error .keyError, store)
        | some ridCell =>
          if sqlSelectForms store ridCell then exportFormLoop cols rest store msgs
          else
            match newRowLines cols row with
            | .error e => (.error e, store)
            | .ok ls => exportFormLoop cols rest (sqlInsertForms store ridCell) (msgs ++ ls) :=
  rfl

/-- What a completed (exception-free) dedup loop guarantees: the table only
grows, every processed row had a `responseId` column, and every row's id is
afterwards either NULL (never matchable) or present in the table. -/
theorem exportFormLoop_ok_facts (cols : List Cell) :
    ∀ (rows : List (List Cell)) (store : List Cell) (msgs m1 : List String)
      (store1 : List Cell),
      exportFormLoop cols rows store msgs = (.ok m1, store1) →
      ((∀ x : Cell, sqlSelectForms store x = true → sqlSelectForms store1 x = true) ∧
       ∀ row ∈ rows, ∃ rc, seriesGetCell cols row (some "responseId") = some rc ∧
         (rc = none ∨ sqlSelectForms store1 rc = true)) := by
  intro rows
  induction rows with
  | nil =>
    intro store msgs m1 store1 heq
    have h2 : store = store1 := congrArg Prod.snd heq
    subst h2
    exact ⟨fun x hx => hx, fun row hrow => absurd hrow (List.not_mem_nil _)⟩
  | cons row rest ih =>
    intro store msgs m1 store1 heq
    rw [exportFormLoop_cons] at heq
    rcases hg : seriesGetCell cols row (some "responseId") with _ | ridCell
    · simp only [hg] at heq
      exact Except.noConfusion (congrArg Prod.fst heq)
    · simp only [hg] at heq
      by_cases hsel : sqlSelectForms store ridCell = true
      · rw [if_pos hsel] at heq
        obtain ⟨hmono, hrows⟩ := ih store msgs m1 store1 heq
        refine ⟨hmono, ?_⟩
        intro row2 hrow2
        rcases List.mem_cons.mp hrow2 with rfl | h2
        · exact ⟨ridCell, hg, Or.inr (hmono ridCell hsel)⟩
        · exact hrows row2 h2
      · rw [if_neg hsel] at heq
        rcases hnl : newRowLines cols row with e | ls
        · simp only [hnl] at heq
          exact Except.noConfusion (congrArg Prod.fst heq)
        · simp only [hnl] at heq
          obtain ⟨hmono, hrows⟩ := ih _ _ m1 store1 heq
          have hmono2 : ∀ x : Cell, sqlSelectForms store x = true →
              sqlSelectForms store1 x = true := by
            intro x hx
            refine hmono x ?_
            show sqlSelectForms (store ++ [ridCell]) x = true
            rw [sqlSelectForms_append, hx]
            rfl
          refine ⟨hmono2, ?_⟩
          intro row2 hrow2
          rcases List.mem_cons.mp hrow2 with rfl | h2
          · rcases hrc : ridCell with _ | b
            · subst hrc
              exact ⟨none, hg, Or.inl rfl⟩
            · subst hrc
              have hsel2 : sqlSelectForms (sqlInsertForms store (some b)) (some b) = true := by
                show sqlSelectForms (store ++ [some b]) (some b) = true
                rw [sqlSelectForms_append]
                simp [sqlSelectForms]
              exact ⟨some b, hg, Or.inr (hmono _ hsel2)⟩
          · exact hrows row2 h2

/-- A dedup loop over rows whose ids are all already present delivers
nothing and leaves the table unchanged. -/
theorem exportFormLoop_skip_all (cols : List Cell) :
    ∀ (rows : List (List Cell)) (store : List Cell) (msgs : List String),
      (∀ row ∈ rows, ∃ rc, seriesGetCell cols row (some "responseId") = some rc ∧
        sqlSelectForms store rc = true) →
      exportFormLoop cols rows store msgs = (.ok msgs, store) := by
  intro rows
  induction rows with
  | nil => intro store msgs _; rfl
  | cons row rest ih =>
    intro store msgs hall
    obtain ⟨rc, hg, hsel⟩ := hall row (List.mem_cons_self _ _)
    rw [exportFormLoop_cons]
    simp only [hg]
    rw [if_pos hsel]
    exact ih store msgs (fun r hr => hall r (List.mem_cons_of_mem _ hr))

theorem formsExportForm_dfNone (env : Env) (store : List Cell) (h : dfOfEnv env = none) :
    formsExportForm env store = (.ok none, store) := by
  unfold formsExportForm
  rw [h]

theorem formsExportForm_dfSome (env : Env) (store : List Cell) (d : Table)
    (h : dfOfEnv env = some d) :
    formsExportForm env store
      = match exportFormLoop d.columns d.rows store [] with
        | (.ok msgs, store2) => (.ok (some (String.intercalate "\n" msgs)), store2)
        | (.error e, store2) => (.error e, store2) := by
  unfold formsExportForm
  rw [h]

/-- C4 (amended): a second `export_form` run on an unchanged environment,
after a first run that completed without raising and whose iterated rows
all carried a non-NULL `responseId` cell, composes the empty message and
leaves the dedup table unchanged, and the following cycle delivers
nothing. (A fallback row whose `responseId` cell is NaN — stored as SQL
NULL, which no equality check ever matches — escapes this and is
re-delivered every cycle.) -/
theorem sync_idempotent_nonnull_ids (env : Env) (store : List Cell)
    (m : Option String) (store1 : List Cell)
    (h1 : formsExportForm env store = (.ok m, store1))
    (h2 : ∀ d, dfOfEnv env = some d →
      ∀ row ∈ d.rows, seriesGetCell d.columns row (some "responseId") ≠ some none) :
    formsExportForm env store1 = (.ok (m.map fun _ => ""), store1) ∧
    (m.isSome = true → checkCycle env store1 true true = (.ok none, store1)) := by
  rcases hdf : dfOfEnv env with _ | d
  · rw [formsExportForm_dfNone env store hdf] at h1
    have hsnd : store = store1 := congrArg Prod.snd h1
    subst hsnd
    obtain rfl : (none : Option String) = m := Except.ok.inj (congrArg Prod.fst h1)
    refine ⟨?_, fun hm => absurd hm (by simp)⟩
    rw [formsExportForm_dfNone env store hdf]
    rfl
  · rw [formsExportForm_dfSome env store d hdf] at h1
    rcases hloop : exportFormLoop d.columns d.rows store [] with ⟨res, store2⟩
    rw [hloop] at h1
    rcases res with e | msgs
    · exact absurd (congrArg Prod.fst h1) (fun hh => Except.noConfusion hh)
    · have hsnd : store2 = store1 := congrArg Prod.snd h1
      subst hsnd
      have hfst : some (String.intercalate "\n" msgs) = m :=
        Except.ok.inj (congrArg Prod.fst h1)
      obtain ⟨hmono, hrows⟩ :=
        exportFormLoop_ok_facts d.columns d.rows store [] msgs store2 hloop
      have hall : ∀ row ∈ d.rows, ∃ rc,
          seriesGetCell d.columns row (some "responseId") = some rc ∧
          sqlSelectForms store2 rc = true := by
        intro row hrow
        obtain ⟨rc, hg, hor⟩ := hrows row hrow
        rcases hor with rfl | hsel
        · exact absurd hg (h2 d hdf row hrow)
        · exact ⟨rc, hg, hsel⟩
      have hskip := exportFormLoop_skip_all d.columns d.rows store2 [] hall
      have hc1 : formsExportForm env store2 = (.ok (some ""), store2) := by
        rw [formsExportForm_dfSome env store2 d hdf, hskip]
        rfl
      refine ⟨?_, fun _ => ?_⟩
      · rw [hc1, ← hfst]
        rfl
      · unfold checkCycle
        rw [hc1]
        rfl

/-- C4 counterexample: a fallback sheet with header `[x, responseId]` and
the single data row `[v]` leaves the row's `responseId` cell NaN; the first
sync delivers the row and inserts NULL, and the second sync — upstream
unchanged — delivers the very same row again instead of yielding NoData. -/
theorem second_sync_redelivers_null_id_cex :
    formsExportForm exEnvNullId [] = (.ok (some "**x**: v\n"), [none]) ∧
    formsExportForm exEnvNullId [none] = (.ok (some "**x**: v\n"), [none, none]) ∧
    ("**x**: v\n" : String) ≠ "" :=
  ⟨rfl, rfl, by decide⟩

/-- Witness for the C4 theorem: one new primary response, synced twice. -/
theorem sync_idempotent_witness :
    formsExportForm exEnvPrimary [some "id1"] = (.ok (some ""), [some "id1"]) ∧
    checkCycle exEnvPrimary [some "id1"] true true = (.ok none, [some "id1"]) := by
  have h := sync_idempotent_nonnull_ids exEnvPrimary [] (some exMsgPrimary) [some "id1"]
    rfl
    (by
      intro d hd
      have hd2 : some exDfPrimary = some d := hd
      obtain rfl : exDfPrimary = d := Option.some.inj hd2
      decide)
  exact ⟨h.1, h.2 rfl⟩

theorem runCsv_nil (st : CsvSt) (f : List Char) (r : List String) (acc : List (List String)) :
    runCsv [] st f r acc
      = if st = CsvSt.plain ∧ f.isEmpty ∧ r.isEmpty then acc
        else acc ++ [r ++ [String.mk f]] := rfl

theorem runCsv_cons_plain (c : Char) (cs f : List Char) (r : List String)
    (acc : List (List String)) :
    runCsv (c :: cs) CsvSt.plain f r acc
      = if c = '"' ∧ f.isEmpty then runCsv cs CsvSt.quoted f r acc
        else if c = '\t' then runCsv cs CsvSt.plain [] (r ++ [String.mk f]) acc
        else if c = '\n' then runCsv cs CsvSt.plain [] [] (acc ++ [r ++ [String.mk f]])
        else runCsv cs CsvSt.plain (f ++ [c]) r acc := rfl

theorem runCsv_cons_quoted (c : Char) (cs f : List Char) (r : List String)
    (acc : List (List String)) :
    runCsv (c :: cs) CsvSt.quoted f r acc
      = if c = '"' then runCsv cs CsvSt.qclose f r acc
        else runCsv cs CsvSt.quoted (f ++ [c]) r acc := rfl

theorem runCsv_cons_qclose (c : Char) (cs f : List Char) (r : List String)
    (acc : List (List String)) :
    runCsv (c :: cs) CsvSt.qclose f r acc
      = if c = '"' then runCsv cs CsvSt.quoted (f ++ ['"']) r acc
        else if c = '\t' then runCsv cs CsvSt.plain [] (r ++ [String.mk f]) acc
        else if c = '\n' then runCsv cs CsvSt.plain [] [] (acc ++ [r ++ [String.mk f]])
        else runCsv cs CsvSt.plain (f ++ [c]) r acc := rfl

theorem escQuotes_cons_ne (c : Char) (s : List Char) (h : ¬ c = '"') :
    escQuotes (c :: s) = c :: escQuotes s := by
  simp [escQuotes, h]

/-- Feeding special-free characters in the plain state appends them to the
current field. -/
theorem runCsv_plain_chars (s : List Char) :
    ∀ (cs f : List Char) (r : List String) (acc : List (List String)),
      (∀ c ∈ s, ¬ c ∈ csvSpecials) →
      runCsv (s ++ cs) CsvSt.plain f r acc = runCsv cs CsvSt.plain (f ++ s) r acc := by
  induction s with
  | nil => intro cs f r acc _; simp
  | cons c s ih =>
    intro cs f r acc h
    have hc : ¬ c ∈ csvSpecials := h c (List.mem_cons_self _ _)
    simp only [csvSpecials, List.mem_cons, List.not_mem_nil, or_false] at hc
    push_neg at hc
    obtain ⟨hct, hcq, hcn, _⟩ := hc
    show runCsv (c :: (s ++ cs)) CsvSt.plain f r acc = _
    rw [runCsv_cons_plain, if_neg (fun hh => hcq hh.1), if_neg hct, if_neg hcn,
      ih cs (f ++ [c]) r acc (fun x hx => h x (List.mem_cons_of_mem _ hx)),
      List.append_assoc]
    rfl

/-- Feeding an escaped cell body in the quoted state appends the unescaped
text to the current field and stops just past the closing quote. -/
theorem runCsv_quoted_chars (s : List Char) :
    ∀ (cs f : List Char) (r : List String) (acc : List (List String)),
      runCsv (escQuotes s ++ '"' :: cs) CsvSt.quoted f r acc
        = runCsv cs CsvSt.qclose (f ++ s) r acc := by
  induction s with
  | nil =>
    intro cs f r acc
    show runCsv ('"' :: cs) CsvSt.quoted f r acc = _
    rw [runCsv_cons_quoted, if_pos rfl]
    simp
  | cons c s ih =>
    intro cs f r acc
    by_cases hc : c = '"'
    · subst hc
      show runCsv ('"' :: ('"' :: (escQuotes s ++ '"' :: cs))) CsvSt.quoted f r acc = _
      rw [runCsv_cons_quoted, if_pos rfl, runCsv_cons_qclose, if_pos rfl, ih,
        List.append_assoc]
      rfl
    · rw [escQuotes_cons_ne c s hc]
      show runCsv (c :: (escQuotes s ++ '"' :: cs)) CsvSt.quoted f r acc = _
      rw [runCsv_cons_quoted, if_neg hc, ih, List.append_assoc]
      rfl

theorem needsQuote_false_chars (s : String) (h : needsQuote s = false) :
    ∀ c ∈ s.data, ¬ c ∈ csvSpecials := by
  intro c hc hmem
  have : s.data.any (fun c => decide (c ∈ csvSpecials)) = true :=
    List.any_eq_true.mpr ⟨c, hc, by simpa⟩
  rw [show s.data.any (fun c => decide (c ∈ csvSpecials)) = needsQuote s from rfl, h] at this
  exact Bool.noConfusion this

/-- One encoded cell followed by a tab: the reader recovers the cell and
starts the next field. -/
theorem runCsv_encodeCell_tab (s : String) (cs : List Char) (r : List String)
    (acc : List (List String)) :
    runCsv (encodeCell s ++ '\t' :: cs) CsvSt.plain [] r acc
      = runCsv cs CsvSt.plain [] (r ++ [s]) acc := by
  rcases hq : needsQuote s with _ | _
  · rw [show encodeCell s = s.data from by simp [encodeCell, hq]]
    rw [runCsv_plain_chars s.data _ _ _ _ (needsQuote_false_chars s hq), runCsv_cons_plain,
      if_neg (fun hh => by exact absurd hh.1 (by decide)), if_pos rfl]
    rfl
  · rw [show encodeCell s = '"' :: (escQuotes s.data ++ ['"']) from by simp [encodeCell, hq]]
    show runCsv ('"' :: ((escQuotes s.data ++ ['"']) ++ '\t' :: cs)) CsvSt.plain [] r acc = _
    rw [runCsv_cons_plain, if_pos ⟨rfl, rfl⟩, List.append_assoc, List.cons_append,
      runCsv_quoted_chars]
    show runCsv ('\t' :: cs) CsvSt.qclose s.data r acc = _
    rw [runCsv_cons_qclose, if_neg (by decide), if_pos rfl]

/-- One encoded cell followed by a newline: the reader recovers the cell,
closes the record, and starts the next one. -/
theorem runCsv_encodeCell_nl (s : String) (cs : List Char) (r : List String)
    (acc : List (List String)) :
    runCsv (encodeCell s ++ '\n' :: cs) CsvSt.plain [] r acc
      = runCsv cs CsvSt.plain [] [] (acc ++ [r ++ [s]]) := by
  rcases hq : needsQuote s with _ | _
  · rw [show encodeCell s = s.data from by simp [encodeCell, hq]]
    rw [runCsv_plain_chars s.data _ _ _ _ (needsQuote_false_chars s hq), runCsv_cons_plain,
      if_neg (fun hh => by exact absurd hh.1 (by decide)), if_neg (by decide), if_pos rfl]
    rfl
  · rw [show encodeCell s = '"' :: (escQuotes s.data ++ ['"']) from by simp [encodeCell, hq]]
    show runCsv ('"' :: ((escQuotes s.data ++ ['"']) ++ '\n' :: cs)) CsvSt.plain [] r acc = _
    rw [runCsv_cons_plain, if_pos ⟨rfl, rfl⟩, List.append_assoc, List.cons_append,
      runCsv_quoted_chars]
    show runCsv ('\n' :: cs) CsvSt.qclose s.data r acc = _
    rw [runCsv_cons_qclose, if_neg (by decide), if_neg (by decide), if_pos rfl]

theorem encodeLine_cons₂ (f g : String) (fs : List String) :
    encodeLine (f :: g :: fs) = encodeCell f ++ '\t' :: encodeLine (g :: fs) := rfl

/-- One encoded record followed by a newline: the reader recovers exactly
its fields as one record. -/
theorem runCsv_encodeLine (fields : List String) :
    ∀ (cs : List Char) (r : List String) (acc : List (List String)), fields ≠ [] →
      runCsv (encodeLine fields ++ '\n' :: cs) CsvSt.plain [] r acc
        = runCsv cs CsvSt.plain [] [] (acc ++ [r ++ fields]) := by
  induction fields with
  | nil => intro cs r acc h; exact absurd rfl h
  | cons f fs ih =>
    intro cs r acc _
    cases fs with
    | nil =>
      show runCsv (encodeCell f ++ '\n' :: cs) CsvSt.plain [] r acc = _
      rw [runCsv_encodeCell_nl]
    | cons g fs2 =>
      rw [encodeLine_cons₂, List.append_assoc, List.cons_append, runCsv_encodeCell_tab,
        ih cs (r ++ [f]) acc (by simp), List.append_assoc]
      rfl

/-- The whole encoded file parses back to exactly its records. -/
theorem runCsv_encodeFile (lines : List (List String)) :
    ∀ acc : List (List String), (∀ l ∈ lines, l ≠ []) →
      runCsv (encodeFile lines) CsvSt.plain [] [] acc = acc ++ lines := by
  induction lines with
  | nil =>
    intro acc _
    rw [show encodeFile [] = [] from rfl, runCsv_nil, if_pos ⟨rfl, rfl, rfl⟩]
    simp
  | cons l ls ih =>
    intro acc h
    show runCsv (encodeLine l ++ '\n' :: encodeFile ls) CsvSt.plain [] [] acc = _
    rw [runCsv_encodeLine l _ _ _ (h l (List.mem_cons_self _ _)),
      ih _ (fun x hx => h x (List.mem_cons_of_mem _ hx))]
    simp

/-- C9: re-parsing the tab-delimited text `to_csv` writes, with the same
delimiter, recovers exactly the header of column names and every cell
value, for any table with at least one column (and hence no empty record
line). -/
theorem to_csv_round_trip (t : Table) (h1 : t.columns ≠ [])
    (h2 : ∀ r ∈ t.rows, r ≠ []) :
    parseTsv (toCsv t)
      = (t.columns.map cellOut) :: t.rows.map (fun r => r.map cellOut) := by
  have hne : ∀ l ∈ toCsvLines t, l ≠ [] := by
    intro l hl
    rcases List.mem_cons.mp hl with rfl | hl2
    · intro hh
      exact h1 (List.map_eq_nil_iff.mp hh)
    · obtain ⟨r, hr, rfl⟩ := List.mem_map.mp hl2
      intro hh
      exact h2 r hr (List.map_eq_nil_iff.mp hh)
  calc parseTsv (toCsv t)
      = runCsv (encodeFile (toCsvLines t)) CsvSt.plain [] [] [] := rfl
    _ = [] ++ toCsvLines t := runCsv_encodeFile (toCsvLines t) [] hne
    _ = _ := by simp [toCsvLines]

/-- Witness for C9 at a concrete 2-row, 3-column table. -/
theorem to_csv_round_trip_witness :
    (exT9.columns ≠ [] ∧ ∀ r ∈ exT9.rows, r ≠ []) ∧
    parseTsv (toCsv exT9) = [["c1", "c2", "c3"], ["a", "b", "c"], ["d", "e", "f"]] :=
  ⟨⟨by decide, by decide⟩, to_csv_round_trip exT9 (by decide) (by decide)⟩

end FormsExporter



